import Mathlib

/-!
Verification of the inventory management module (`src/inventory_system.py`).

The inventory ("stock") is a Python dict from item name to quantity.  We
embed it as an insertion-ordered association list `List (String × Int)`:
Python dicts iterate in insertion order, assignment to an existing key keeps
its position, assignment to a fresh key appends at the end, and `del`
removes the entry.  Python argument values (which may fail the module's
`isinstance` validation) are embedded as `PyVal`; JSON documents and the
file system are embedded explicitly for the persistence functions.
-/

set_option autoImplicit false

namespace Inventory

/-- Python argument values relevant to this module: strings and integers.
Arguments of any other type always fail the module's validation. -/
inductive PyVal where
  | str (s : String)
  | int (n : Int)
  | pynone
  deriving DecidableEq, Repr

/-- The inventory dict: insertion-ordered association list from item name
to quantity. -/
def Stock : Type := List (String × Int)

/-- Keys of the dict, in iteration order. -/
def keys (l : Stock) : List String := l.map Prod.fst

/-- Python dicts have unique keys; this is the representation invariant of
the association-list embedding. -/
def keysNodup (l : Stock) : Prop := (keys l).Nodup

instance : DecidablePred keysNodup := fun l =>
  inferInstanceAs (Decidable (keys l).Nodup)

/-- Embedding of `stock.get(item, default)` / `stock[item]` lookup: the
value at the first entry with the given key. -/
def dictGet : Stock → String → Option Int
  | [], _ => none
  | (k', v') :: t, k => if k' = k then some v' else dictGet t k

/-- Embedding of `stock[item] = v`: replace the value at an existing key in
place, or append a new entry at the end. -/
def dictSet : Stock → String → Int → Stock
  | [], k, v => [(k, v)]
  | (k', v') :: t, k, v => if k' = k then (k, v) :: t else (k', v') :: dictSet t k v

/-- Embedding of `del stock[item]`: remove the (unique) entry with the
given key. -/
def dictDel : Stock → String → Stock
  | [], _ => []
  | (k', v') :: t, k => if k' = k then t else (k', v') :: dictDel t k

/-- Validation from `add_item`/`remove_item`:
`isinstance(item, str) and item` (a non-empty string). -/
def validItem : PyVal → Bool
  | .str s => !s.isEmpty
  | _ => false

/-- Validation from `add_item`/`remove_item`: `isinstance(qty, int)`. -/
def validQty : PyVal → Bool
  | .int _ => true
  | _ => false

/-- Embedding of `add_item(stock, item, qty)`.  Returns the stock after the
call (the Python function mutates `stock` in place and returns `None`).
Invalid arguments only log and leave the stock unchanged; otherwise
`stock[item] = stock.get(item, 0) + qty`. -/
def add_item (stock : Stock) (item qty : PyVal) : Stock :=
  match item with
  | .str s =>
    if s.isEmpty then stock
    else
      match qty with
      | .int q => dictSet stock s ((dictGet stock s).getD 0 + q)
      | _ => stock
  | _ => stock

/-- Embedding of `remove_item(stock, item, qty)`.  Returns the stock after
the call.  Invalid arguments only log; `stock[item] -= qty` raises
`KeyError` (caught, stock unchanged) when the item is absent; otherwise the
new value is stored and the entry is deleted when it is `<= 0`. -/
def remove_item (stock : Stock) (item qty : PyVal) : Stock :=
  match item with
  | .str s =>
    if s.isEmpty then stock
    else
      match qty with
      | .int q =>
        match dictGet stock s with
        | none => stock
        | some v =>
          let stock1 := dictSet stock s (v - q)
          if v - q ≤ 0 then dictDel stock1 s else stock1
      | _ => stock
  | _ => stock

/-- Embedding of `get_qty(stock, item)`: `stock.get(item, 0)`. -/
def get_qty (stock : Stock) (item : String) : Int :=
  (dictGet stock item).getD 0

/-- Embedding of `check_low_items(stock, threshold)`: the loop
`for item, qty in stock.items(): if qty < threshold: result.append(item)`. -/
def check_low_items : Stock → Int → List String
  | [], _ => []
  | (item, qty) :: t, threshold =>
    if qty < threshold then item :: check_low_items t threshold
    else check_low_items t threshold

/-- The Python default argument `threshold=5` of `check_low_items`. -/
def check_low_items_default (stock : Stock) : List String :=
  check_low_items stock 5

/-- JSON documents, as produced by `json.load`. -/
inductive Json where
  | obj (fields : List (String × Json))
  | jstr (s : String)
  | jint (n : Int)
  | jarr (elems : List Json)
  | jbool (b : Bool)
  | jnull
  deriving Repr

/-- Contents of a file on disk in the caught-failure fragment of the
persistence model: either bytes that parse as a JSON document, or decodable
text that makes `json.load` raise `JSONDecodeError`.  This fragment covers
exactly the conditions `load_data`'s handlers catch; the full model, which
also represents undecodable bytes and open-time OS errors, is
`PathState`/`load_data_full` below. -/
inductive FileContent where
  | json (j : Json)
  | invalid
  deriving Repr

/-- The file system in the caught-failure fragment: each path either holds
a file or is absent (`open` raises `FileNotFoundError`).  The full model
with open-time OS failures is `FSFull` below. -/
def FS : Type := String → Option FileContent

/-- Serialization of a stock dict by `json.dump`: a JSON object whose
values are the integer quantities. -/
def stockToJson (stock : Stock) : Json :=
  .obj (stock.map fun kv => (kv.1, .jint kv.2))

/-- Embedding of `load_data(file)` over the caught-failure fragment.
`FileNotFoundError` and `JSONDecodeError` are caught (empty dict, log); a
parsed document that is not a dict is rejected (empty dict, log);
otherwise the parsed dict is returned as is.  On this fragment no
uncaught exception can arise; `load_data_full` below extends the embedding
to the error paths the handlers do not cover. -/
def load_data (fs : FS) (file : String) : List (String × Json) :=
  match fs file with
  | none => []
  | some .invalid => []
  | some (.json j) =>
    match j with
    | .obj fields => fields
    | _ => []

/-- Embedding of `save_data(stock, file)`: overwrite `file` with the JSON
serialization of `stock` (the success path of the write; an `IOError` is
caught inside `save_data` and only logged). -/
def save_data (stock : Stock) (fs : FS) (file : String) : FS :=
  fun p => if p = file then some (.json (stockToJson stock)) else fs p

/-- Open-time OS errors other than `FileNotFoundError` that `open` can
raise and `load_data` does not catch. -/
inductive OpenError where
  | permissionError
  | isADirectoryError
  deriving DecidableEq, Repr

/-- Contents of a file on disk in the full persistence model: bytes that
parse as a JSON document, decodable text that makes `json.load` raise
`JSONDecodeError`, or bytes that are not valid UTF-8, on which reading
inside `json.load` raises `UnicodeDecodeError`. -/
inductive ByteContent where
  | json (j : Json)
  | badJson
  | notUtf8
  deriving Repr

/-- State of a path in the full file-system model: a readable file, an
absent path (`open` raises `FileNotFoundError`), or a path on which `open`
itself fails with an OS error other than `FileNotFoundError`. -/
inductive PathState where
  | file (c : ByteContent)
  | absent
  | openFail (e : OpenError)
  deriving Repr

/-- The file system in the full persistence model. -/
def FSFull : Type := String → PathState

/-- Exceptions that escape `load_data`: `UnicodeDecodeError` from reading
undecodable bytes, and open-time OS errors.  Neither is matched by the
`except FileNotFoundError` / `except json.JSONDecodeError` handlers. -/
inductive LoadError where
  | unicodeDecodeError
  | openError (e : OpenError)
  deriving DecidableEq, Repr

/-- Embedding of `load_data(file)` over the full error model.  The `try`
block catches exactly `FileNotFoundError` and `json.JSONDecodeError`;
`UnicodeDecodeError` raised while reading undecodable bytes and open-time
OS errors other than `FileNotFoundError` are not caught and propagate to
the caller as `.error`. -/
def load_data_full (fs : FSFull) (file : String) :
    Except LoadError (List (String × Json)) :=
  match fs file with
  | .absent => .ok []
  | .openFail e => .error (.openError e)
  | .file .notUtf8 => .error .unicodeDecodeError
  | .file .badJson => .ok []
  | .file (.json j) =>
    match j with
    | .obj fields => .ok fields
    | _ => .ok []

/-- Inclusion of the caught-failure fragment into the full file-system
model. -/
def fsToFull (fs : FS) : FSFull :=
  fun p =>
    match fs p with
    | none => .absent
    | some .invalid => .file .badJson
    | some (.json j) => .file (.json j)

/-! ### Lemmas about the dict embedding -/

theorem dictGet_dictSet_self (l : Stock) (k : String) (v : Int) :
    dictGet (dictSet l k v) k = some v := by
  induction l with
  | nil => simp [dictGet, dictSet]
  | cons hd t ih =>
    obtain ⟨k', v'⟩ := hd
    by_cases h : k' = k
    · simp [dictGet, dictSet, h]
    · simp [dictGet, dictSet, h, ih]

theorem dictGet_dictSet_ne (l : Stock) (k k' : String) (v : Int) (h : k' ≠ k) :
    dictGet (dictSet l k v) k' = dictGet l k' := by
  induction l with
  | nil => simp [dictGet, dictSet, if_neg (Ne.symm h)]
  | cons hd t ih =>
    obtain ⟨k₀, v₀⟩ := hd
    by_cases hk : k₀ = k
    · subst hk
      simp [dictGet, dictSet, if_neg (Ne.symm h)]
    · simp only [dictSet, if_neg hk, dictGet]
      by_cases hk' : k₀ = k'
      · simp [if_pos hk']
      · simp [if_neg hk', ih]

theorem dictGet_dictDel_ne (l : Stock) (k k' : String) (h : k' ≠ k) :
    dictGet (dictDel l k) k' = dictGet l k' := by
  induction l with
  | nil => simp [dictDel]
  | cons hd t ih =>
    obtain ⟨k₀, v₀⟩ := hd
    by_cases hk : k₀ = k
    · subst hk
      simp [dictDel, dictGet, if_neg (Ne.symm h)]
    · simp only [dictDel, if_neg hk, dictGet]
      by_cases hk' : k₀ = k'
      · simp [if_pos hk']
      · simp [if_neg hk', ih]

theorem dictGet_eq_none_of_not_mem (l : Stock) (k : String)
    (h : k ∉ keys l) : dictGet l k = none := by
  induction l with
  | nil => simp [dictGet]
  | cons hd t ih =>
    obtain ⟨k₀, v₀⟩ := hd
    simp only [keys, List.map_cons, List.mem_cons, not_or] at h
    simp only [dictGet, if_neg (Ne.symm h.1)]
    exact ih (by simpa [keys] using h.2)

theorem dictGet_dictDel_self (l : Stock) (k : String) (h : keysNodup l) :
    dictGet (dictDel l k) k = none := by
  induction l with
  | nil => simp [dictDel, dictGet]
  | cons hd t ih =>
    obtain ⟨k₀, v₀⟩ := hd
    simp only [keysNodup, keys, List.map_cons, List.nodup_cons] at h
    by_cases hk : k₀ = k
    · subst hk
      simp only [dictDel, if_pos rfl]
      exact dictGet_eq_none_of_not_mem t k₀ h.1
    · simp only [dictDel, if_neg hk, dictGet, if_neg hk]
      exact ih h.2

theorem mem_keys_dictSet (l : Stock) (k a : String) (v : Int)
    (h : a ∈ keys (dictSet l k v)) : a ∈ keys l ∨ a = k := by
  induction l with
  | nil =>
    simp only [dictSet, keys, List.map_cons, List.map_nil, List.mem_cons,
      List.not_mem_nil, or_false] at h
    exact Or.inr h
  | cons hd t ih =>
    obtain ⟨k₀, v₀⟩ := hd
    by_cases hk : k₀ = k
    · subst hk
      simp only [keys, List.map_cons, List.mem_cons]
      simp only [dictSet, keys, List.map_cons, List.mem_cons, if_true,
        eq_self_iff_true] at h
      tauto
    · simp only [dictSet, if_neg hk, keys, List.map_cons, List.mem_cons] at h
      simp only [keys, List.map_cons, List.mem_cons]
      rcases h with h | h
      · tauto
      · rcases ih h with h' | h' <;> tauto

theorem keysNodup_dictSet (l : Stock) (k : String) (v : Int)
    (h : keysNodup l) : keysNodup (dictSet l k v) := by
  induction l with
  | nil => simp [dictSet, keysNodup, keys]
  | cons hd t ih =>
    obtain ⟨k₀, v₀⟩ := hd
    simp only [keysNodup, keys, List.map_cons, List.nodup_cons] at h
    by_cases hk : k₀ = k
    · subst hk
      simpa [dictSet, keysNodup, keys] using h
    · simp only [dictSet, if_neg hk, keysNodup, keys, List.map_cons,
        List.nodup_cons]
      refine ⟨fun hmem => ?_, ih h.2⟩
      rcases mem_keys_dictSet t k k₀ v hmem with h' | h'
      · exact h.1 h'
      · exact hk (h'.symm ▸ rfl)

/-- The full model refines the caught-failure fragment: on a file system
with no undecodable files and no open-time failures, `load_data_full`
succeeds and returns exactly what the fragment's `load_data` returns. -/
theorem load_data_full_fsToFull (fs : FS) (file : String) :
    load_data_full (fsToFull fs) file = .ok (load_data fs file) := by
  unfold load_data_full fsToFull load_data
  cases fs file with
  | none => rfl
  | some c =>
    cases c with
    | invalid => rfl
    | json j => cases j <;> rfl

/-! ### Claims -/

/-- Claim C1: for every stock mapping, every non-empty string item and every
integer qty (any sign), `add_item` followed by `get_qty` returns the
quantity stored before the call plus `qty`, an absent item counting as
prior quantity 0. -/
theorem add_item_then_get_qty (stock : Stock) (s : String) (q : Int)
    (h : s ≠ "") :
    get_qty (add_item stock (.str s) (.int q)) s = get_qty stock s + q := by
  have hse : ¬s.isEmpty = true := by simpa [String.isEmpty_iff] using h
  simp only [add_item, if_neg hse, get_qty]
  rw [dictGet_dictSet_self]
  rfl

/-- Witness for C1 at the demonstration input `add_item(stock, "apple", 10)`
on a stock already holding 3 apples. -/
theorem add_item_then_get_qty_witness :
    get_qty (add_item [("apple", (3 : Int))] (.str "apple") (.int 10)) "apple"
      = get_qty [("apple", (3 : Int))] "apple" + 10 :=
  add_item_then_get_qty [("apple", 3)] "apple" 10 (by decide)

/-- Claim C2: for valid arguments with `item` present, `remove_item`
subtracts `qty`; if the resulting quantity is `≤ 0` the key is deleted
entirely (`item not in stock`), otherwise the item remains with the
decremented quantity. -/
theorem remove_item_present_spec (stock : Stock) (s : String) (q v : Int)
    (hs : s ≠ "") (hnd : keysNodup stock) (hv : dictGet stock s = some v) :
    (v - q ≤ 0 → dictGet (remove_item stock (.str s) (.int q)) s = none) ∧
    (0 < v - q →
      dictGet (remove_item stock (.str s) (.int q)) s = some (v - q)) := by
  have hse : ¬s.isEmpty = true := by simpa [String.isEmpty_iff] using hs
  simp only [remove_item, if_neg hse, hv]
  constructor
  · intro hle
    rw [if_pos hle]
    exact dictGet_dictDel_self _ _ (keysNodup_dictSet _ _ _ hnd)
  · intro hpos
    rw [if_neg (by omega)]
    exact dictGet_dictSet_self _ _ _

/-- Witness for C2 at the demonstration input
`remove_item(stock, "apple", 3)` with 10 apples in stock. -/
theorem remove_item_present_spec_witness :
    dictGet (remove_item [("apple", (10 : Int))] (.str "apple") (.int 3))
        "apple" = some (10 - 3) :=
  (remove_item_present_spec [("apple", 10)] "apple" 3 10 (by decide)
    (by decide) (by decide)).2 (by decide)

/-- Claim C3: `remove_item` on a valid but absent item leaves the mapping
completely unchanged (the `KeyError` is caught and logged, not
propagated). -/
theorem remove_item_absent_noop (stock : Stock) (s : String) (q : Int)
    (hs : s ≠ "") (habs : dictGet stock s = none) :
    remove_item stock (.str s) (.int q) = stock := by
  have hse : ¬s.isEmpty = true := by simpa [String.isEmpty_iff] using hs
  simp only [remove_item, if_neg hse, habs]

/-- Witness for C3 at the demonstration input
`remove_item(stock, "orange", 1)` with only apples in stock. -/
theorem remove_item_absent_noop_witness :
    remove_item [("apple", (10 : Int))] (.str "orange") (.int 1)
      = [("apple", (10 : Int))] :=
  remove_item_absent_noop [("apple", 10)] "orange" 1 (by decide) (by decide)

/-- Claim C4: `save_data` followed by `load_data` on the same path yields a
mapping deep-equal to the saved stock: the loaded dict has exactly the
entries of `stock`, in order, with each integer value embedded as the
corresponding JSON integer (`Json.jint` is the embedding of a Python `int`
through `json.dump`/`json.load`). -/
theorem save_load_roundtrip (stock : Stock) (fs : FS) (file : String) :
    load_data (save_data stock fs file) file
      = stock.map (fun kv => (kv.1, Json.jint kv.2)) := by
  simp [load_data, save_data, stockToJson]

/-- Claim C5, counterexample: a file that exists but whose bytes are not
decodable UTF-8 text makes `load_data` raise `UnicodeDecodeError` past its
boundary — the caller receives an exception, not a mapping, refuting
"never raises past this boundary ... in every case the caller receives a
mapping, never an exception" at this concrete input. -/
theorem load_data_raises_on_undecodable :
    load_data_full (fun _ => .file .notUtf8) "inventory.json"
      = .error .unicodeDecodeError := rfl

/-- Claim C5, amended: `load_data` returns the empty mapping without
raising for exactly the failure modes its handlers cover — an absent file
(`FileNotFoundError`, warning logged), a file whose bytes decode as text
but fail JSON parsing (`JSONDecodeError`, error logged), and a parsed
document that is not a key-value object; but a file whose bytes are not
valid UTF-8 raises `UnicodeDecodeError` past the boundary, and open-time
OS errors other than `FileNotFoundError` (`PermissionError`,
`IsADirectoryError`) also propagate, so in those cases the caller receives
an exception rather than a mapping. -/
theorem load_data_failure_policy_full (fs : FSFull) (file : String) :
    (fs file = .absent → load_data_full fs file = .ok []) ∧
    (fs file = .file .badJson → load_data_full fs file = .ok []) ∧
    (∀ j, fs file = .file (.json j) → (∀ fields, j ≠ .obj fields) →
      load_data_full fs file = .ok []) ∧
    (fs file = .file .notUtf8 →
      load_data_full fs file = .error .unicodeDecodeError) ∧
    (∀ e, fs file = .openFail e →
      load_data_full fs file = .error (.openError e)) := by
  refine ⟨fun h => by simp [load_data_full, h], fun h => by
    simp [load_data_full, h], fun j hj hno => ?_, fun h => by
    simp [load_data_full, h], fun e h => by simp [load_data_full, h]⟩
  cases j with
  | obj fields => exact absurd rfl (hno fields)
  | jstr s => simp [load_data_full, hj]
  | jint n => simp [load_data_full, hj]
  | jarr xs => simp [load_data_full, hj]
  | jbool b => simp [load_data_full, hj]
  | jnull => simp [load_data_full, hj]

/-- Witness for the amended C5: loading from an empty file system (the
expected first-run state) succeeds with the empty mapping. -/
theorem load_data_failure_policy_full_witness :
    load_data_full (fun _ => .absent) "inventory.json" = .ok [] :=
  (load_data_failure_policy_full (fun _ => .absent) "inventory.json").1 rfl

/-- Claim C6: `check_low_items` returns exactly the item names whose
quantity is strictly below the threshold, in the mapping's iteration
order; the empty mapping yields the empty list; the default threshold
is 5. -/
theorem check_low_items_spec (stock : Stock) (threshold : Int) :
    check_low_items stock threshold
        = (stock.filter (fun kv => decide (kv.2 < threshold))).map Prod.fst ∧
    check_low_items ([] : Stock) threshold = [] ∧
    check_low_items_default stock = check_low_items stock 5 := by
  refine ⟨?_, rfl, rfl⟩
  induction stock with
  | nil => rfl
  | cons hd t ih =>
    obtain ⟨a, b⟩ := hd
    by_cases hb : b < threshold <;>
      simp [check_low_items, hb, ih, List.filter_cons]

/-- Claim C7: for both `add_item` and `remove_item`, a call whose `item` is
not a non-empty string or whose `qty` is not an integer leaves the stock
mapping completely unchanged and raises nothing (validation only logs). -/
theorem invalid_args_noop (stock : Stock) (item qty : PyVal)
    (h : validItem item = false ∨ validQty qty = false) :
    add_item stock item qty = stock ∧ remove_item stock item qty = stock := by
  cases item with
  | str s =>
    by_cases hse : s.isEmpty = true
    · simp [add_item, remove_item, hse]
    · rcases h with h | h
      · simp [validItem, hse] at h
      · cases qty with
        | int n => simp [validQty] at h
        | str s2 => simp [add_item, remove_item, hse]
        | pynone => simp [add_item, remove_item, hse]
  | int n => exact ⟨rfl, rfl⟩
  | pynone => exact ⟨rfl, rfl⟩

/-- Witness for C7 at the demonstration input `add_item(stock, 123, "ten")`
(item of the wrong type, quantity of the wrong type). -/
theorem invalid_args_noop_witness :
    add_item [("apple", (10 : Int))] (.int 123) (.str "ten")
        = [("apple", (10 : Int))] ∧
    remove_item [("apple", (10 : Int))] (.int 123) (.str "ten")
        = [("apple", (10 : Int))] :=
  invalid_args_noop [("apple", 10)] (.int 123) (.str "ten") (by decide)

/-- Claim C8: `get_qty` is total with no failure mode: it returns the
stored quantity when `item` is present and 0 when it is absent, and it
never modifies the mapping (it is a pure function of its arguments). -/
theorem get_qty_total (stock : Stock) (item : String) :
    (dictGet stock item = none → get_qty stock item = 0) ∧
    (∀ v, dictGet stock item = some v → get_qty stock item = v) := by
  constructor
  · intro h
    simp [get_qty, h]
  · intro v h
    simp [get_qty, h]

/-- Witness for C8: querying an item absent from the stock returns 0. -/
theorem get_qty_total_witness :
    get_qty [("apple", (10 : Int))] "orange" = 0 :=
  (get_qty_total [("apple", 10)] "orange").1 (by decide)

/-- Claim C9: `add_item` and `remove_item` modify at most the entry named
by `item`: every other key keeps exactly its previous binding (present with
the same quantity, or absent), for all argument values valid or not. -/
theorem mutators_frame (stock : Stock) (item qty : PyVal) (k : String)
    (h : item ≠ .str k) :
    dictGet (add_item stock item qty) k = dictGet stock k ∧
    dictGet (remove_item stock item qty) k = dictGet stock k := by
  cases item with
  | str s =>
    have hks : k ≠ s := fun he => h (by rw [he])
    by_cases hse : s.isEmpty = true
    · simp [add_item, remove_item, hse]
    · cases qty with
      | int q =>
        constructor
        · simp only [add_item, if_neg hse]
          exact dictGet_dictSet_ne _ _ _ _ hks
        · simp only [remove_item, if_neg hse]
          cases hv : dictGet stock s with
          | none => rfl
          | some v =>
            by_cases hle : v - q ≤ 0
            · simp only [if_pos hle]
              rw [dictGet_dictDel_ne _ _ _ hks,
                dictGet_dictSet_ne _ _ _ _ hks]
            · simp only [if_neg hle]
              exact dictGet_dictSet_ne _ _ _ _ hks
      | str s2 => simp [add_item, remove_item, hse]
      | pynone => simp [add_item, remove_item, hse]
  | int n => exact ⟨rfl, rfl⟩
  | pynone => exact ⟨rfl, rfl⟩

/-- Witness for C9: adding apples leaves the banana entry untouched. -/
theorem mutators_frame_witness :
    dictGet (add_item [("apple", (10 : Int)), ("banana", (2 : Int))]
        (.str "apple") (.int 3)) "banana"
      = dictGet [("apple", (10 : Int)), ("banana", (2 : Int))] "banana" ∧
    dictGet (remove_item [("apple", (10 : Int)), ("banana", (2 : Int))]
        (.str "apple") (.int 3)) "banana"
      = dictGet [("apple", (10 : Int)), ("banana", (2 : Int))] "banana" :=
  mutators_frame [("apple", 10), ("banana", 2)] (.str "apple") (.int 3)
    "banana" (by decide)

/-- Claim C10: after `remove_item` with valid arguments the item is never
left present with a quantity `≤ 0`, for every integer `qty` including zero
and negative values; in particular, when the stored quantity minus `qty` is
already `≤ 0` (for instance `qty = 0` on a non-positive stored quantity)
the entry is deleted, because the delete-on-`≤ 0` check runs after the
subtraction regardless of the sign of `qty`. -/
theorem remove_item_no_nonpositive (stock : Stock) (s : String) (q : Int)
    (hs : s ≠ "") (hnd : keysNodup stock) :
    (∀ v, dictGet (remove_item stock (.str s) (.int q)) s = some v →
      0 < v) ∧
    (∀ v₀, dictGet stock s = some v₀ → v₀ - q ≤ 0 →
      dictGet (remove_item stock (.str s) (.int q)) s = none) := by
  have hse : ¬s.isEmpty = true := by simpa [String.isEmpty_iff] using hs
  constructor
  · intro v hv
    cases hv₀ : dictGet stock s with
    | none =>
      have hrem : remove_item stock (.str s) (.int q) = stock := by
        simp only [remove_item, if_neg hse, hv₀]
      rw [hrem, hv₀] at hv
      cases hv
    | some v₀ =>
      have hrem : remove_item stock (.str s) (.int q)
          = if v₀ - q ≤ 0 then dictDel (dictSet stock s (v₀ - q)) s
            else dictSet stock s (v₀ - q) := by
        simp only [remove_item, if_neg hse, hv₀]
      rw [hrem] at hv
      by_cases hle : v₀ - q ≤ 0
      · rw [if_pos hle,
          dictGet_dictDel_self _ _ (keysNodup_dictSet _ _ _ hnd)] at hv
        cases hv
      · rw [if_neg hle, dictGet_dictSet_self] at hv
        cases hv
        omega
  · intro v₀ hv₀ hle
    simp only [remove_item, if_neg hse, hv₀, if_pos hle]
    exact dictGet_dictDel_self _ _ (keysNodup_dictSet _ _ _ hnd)

/-- Witness for C10: `remove_item(stock, "banana", 0)` on a banana entry
stored at `-2` deletes the entry. -/
theorem remove_item_no_nonpositive_witness :
    dictGet (remove_item [("banana", (-2 : Int))] (.str "banana") (.int 0))
        "banana" = none :=
  (remove_item_no_nonpositive [("banana", -2)] "banana" 0 (by decide)
    (by decide)).2 (-2) (by decide) (by decide)

end Inventory
